import Mathlib

/-!
Verification development for the Spec-Matching & Pricing-Allocation Engine.

The definitions below are a shallow embedding of the Python sources:
  * `src/services/spec_match_service.py`  (SpecMatchService)
  * `src/agents/technical_agent.py`       (TechnicalAgent)
  * `src/services/pricing_service.py`     (PricingService)
  * `src/models/pricing_models.py`        (PricingTables)
  * `src/models/rfp_models.py`, `src/models/sku_models.py` (data model)

Strings are modelled as Lean `String` (lists of characters where character-level
processing is needed); Python `float` arithmetic is modelled with exact
rationals `ℚ`, so every "within floating tolerance" claim is settled by exact
equality or an explicit concrete deviation.  Python's ASCII `str.lower` is
`Char.toLower`, `str.strip()` trims whitespace on both ends.
-/

namespace EYEngine

/-- ASCII lowercase of every character: Python `str.lower()` on ASCII data. -/
def pyLowerChars (l : List Char) : List Char := l.map Char.toLower

/-- Python `str.strip()`: drop leading and trailing whitespace. -/
def pyStripChars (l : List Char) : List Char :=
  ((l.dropWhile Char.isWhitespace).reverse.dropWhile Char.isWhitespace).reverse

/-- Model of `str(v).lower().strip()` as performed at the top of `_compare_values`. -/
def lowerStrip (s : String) : List Char :=
  pyStripChars (pyLowerChars s.data)

/-- Character class `[a-z0-9]` (the complement of the regex `[^a-z0-9]`).
Input to the substitution is already lowercased. -/
def isLowerAlnum (c : Char) : Bool :=
  (('a' ≤ c && c ≤ 'z') || ('0' ≤ c && c ≤ '9'))

/-- One pass of `re.sub(r'[^a-z0-9]+', '_', s)`: every maximal run of
characters outside `[a-z0-9]` becomes a single underscore.  The boolean
records whether the previous character was part of such a run. -/
def collapseGo : Bool → List Char → List Char
  | _, [] => []
  | prevRun, c :: cs =>
    if isLowerAlnum c then c :: collapseGo false cs
    else if prevRun then collapseGo true cs
    else '_' :: collapseGo true cs

/-- Python `str.strip('_')`: drop leading and trailing underscores. -/
def stripUnderscores (l : List Char) : List Char :=
  ((l.dropWhile (· == '_')).reverse.dropWhile (· == '_')).reverse

/-- Embedding of `SpecMatchService._normalize_name`:
`re.sub(r'[^a-z0-9]+', '_', name.lower().strip()).strip('_')`. -/
def normalizeName (name : String) : List Char :=
  stripUnderscores (collapseGo false (pyStripChars (pyLowerChars name.data)))

/-- Value of a digit character. -/
def digitVal (c : Char) : Nat := c.toNat - 48

/-- Natural number denoted by a list of digit characters (empty list ↦ 0). -/
def digitsToNat (l : List Char) : Nat :=
  l.foldl (fun a c => 10 * a + digitVal c) 0

/-- Embedding of `SpecMatchService._extract_number`: `re.search(r'(\d+\.?\d*)', text)` and
`float` of the matched group.  The leftmost match starts at the first digit,
takes a maximal digit run, an optional decimal point, and a maximal digit run
after it; the resulting token always parses (`float("12.")` is `12.0`).  The
decimal token `I.F` denotes the exact rational `(I·10^k + F) / 10^k` where
`k` is the number of fractional digits. -/
def extractNumber (l : List Char) : Option ℚ :=
  let rest := l.dropWhile (fun c => !c.isDigit)
  match rest with
  | [] => none
  | _ :: _ =>
    let intDigits := rest.takeWhile Char.isDigit
    let afterInt := rest.dropWhile Char.isDigit
    let fracDigits :=
      match afterInt with
      | '.' :: t => t.takeWhile Char.isDigit
      | _ => []
    some (mkRat (digitsToNat intDigits * 10 ^ fracDigits.length +
      digitsToNat fracDigits) (10 ^ fracDigits.length))

/-- Python's `needle in hay` substring test on character lists. -/
def isSubOf (needle : List Char) : List Char → Bool
  | [] => needle.isPrefixOf []
  | c :: t => needle.isPrefixOf (c :: t) || isSubOf needle t

/-- Python `str.split()` with no argument: maximal runs of non-whitespace
characters, empty pieces discarded.  `cur` holds the current word reversed. -/
def wordsGo (cur : List Char) : List Char → List (List Char)
  | [] => if cur.isEmpty then [] else [cur.reverse]
  | c :: cs =>
    if c.isWhitespace then
      if cur.isEmpty then wordsGo [] cs else cur.reverse :: wordsGo [] cs
    else wordsGo (c :: cur) cs

def splitWords (l : List Char) : List (List Char) := wordsGo [] l

/-- Embedding of `SpecMatchService._compare_values`, parameterised by the configured
`numeric_tolerance` (`0.1` by default).  `none` models a missing SKU feature
(Python `None`). -/
def compareValues (tol : ℚ) (rfpValue : String) : Option String → ℚ
  | none => 0
  | some skuValue =>
    let r := lowerStrip rfpValue
    let s := lowerStrip skuValue
    if r = s then 1
    else
      match extractNumber r, extractNumber s with
      | some x, some y =>
        let tolerance := |x * tol|
        if |x - y| ≤ tolerance then 4/5
        else if |x - y| ≤ tolerance * 2 then 1/2
        else 0
      | _, _ =>
        if isSubOf r s || isSubOf s r then 3/5
        else
          let rw := (splitWords r).dedup
          let sw := (splitWords s).dedup
          let common := rw.filter (fun w => sw.contains w)
          if !common.isEmpty then
            (common.length : ℚ) / (max rw.length sw.length) * (1/2)
          else 0

/-- Embedding of `SpecMatchService._get_match_type`. -/
def getMatchType (score : ℚ) : String :=
  if score ≥ 19/20 then "Exact Match"
  else if score ≥ 3/4 then "Good Match"
  else if score ≥ 1/2 then "Partial Match"
  else if score > 0 then "Weak Match"
  else "No Match"

/-- Model of `sku_models.SKUFeature` (`unit` metadata kept; nothing else omitted: it never feeds the engine). -/
structure SKUFeature where
  name : String
  value : String
  unit : Option String := none
deriving DecidableEq, Repr

/-- Model of `sku_models.SKU` (`raw_record`, an arbitrary JSON blob, is never read by
the matching engine and is omitted). -/
structure SKU where
  sku_id : String
  product_name : String
  category : String
  features : List SKUFeature
deriving DecidableEq, Repr

/-- The synonym table built in `SpecMatchService.__init__`, in Python dict
insertion order, entries verbatim. -/
def synonyms : List (String × List String) :=
  [ ("conductor material", ["conductor_material", "conductor", "material"]),
    ("conductor size", ["conductor_size", "size", "cross_section", "cross section"]),
    ("insulation", ["insulation_type", "insulation", "insulating material"]),
    ("voltage", ["voltage_grade", "voltage", "rated voltage", "voltage rating"]),
    ("cores", ["number of cores", "cores", "core count", "no of cores"]) ]

/-- First feature whose normalized name equals the normalized spec name
(the "try exact match first" loop of `_find_matching_feature`). -/
def findFeatureExact (nspec : List Char) : List SKUFeature → Option String
  | [] => none
  | f :: fs =>
    if normalizeName f.name = nspec then some f.value
    else findFeatureExact nspec fs

/-- First feature whose normalized name occurs in a synonym list (inner loop
of the synonym scan).  Note the source compares the *normalized* feature name
against the *raw* synonym entries. -/
def findFeatureInSyns (syns : List String) : List SKUFeature → Option String
  | [] => none
  | f :: fs =>
    if (syns.map String.data).contains (normalizeName f.name) then some f.value
    else findFeatureInSyns syns fs

/-- Outer synonym scan of `_find_matching_feature`: the first group containing
the normalized spec name (or whose canonical key equals it) that also yields a
feature wins; otherwise later groups are tried. -/
def findViaSynonyms (nspec : List Char) (feats : List SKUFeature) :
    List (String × List String) → Option String
  | [] => none
  | (canonical, syns) :: rest =>
    if (syns.map String.data).contains nspec || canonical.data = nspec then
      match findFeatureInSyns syns feats with
      | some v => some v
      | none => findViaSynonyms nspec feats rest
    else findViaSynonyms nspec feats rest

/-- Embedding of `SpecMatchService._find_matching_feature`. -/
def findMatchingFeature (specName : String) (sku : SKU) : Option String :=
  let nspec := normalizeName specName
  match findFeatureExact nspec sku.features with
  | some v => some v
  | none => findViaSynonyms nspec sku.features synonyms

/-- Model of `rfp_models.RFPItem`.  `specs` is a Python dict (keys unique, insertion
order preserved), modelled as an ordered association list; values are strings
(the engine immediately applies `str(...)` to them anyway). -/
structure RFPItem where
  item_id : String
  description : String
  quantity : ℚ
  unit : String
  specs : List (String × String)
deriving DecidableEq, Repr

/-- One entry of the per-spec `comparison` dict built by `compute_spec_match`. -/
structure CompEntry where
  rfp_value : String
  sku_value : String
  match_score : ℚ
  match_type : String
deriving DecidableEq, Repr

/-- Embedding of `SpecMatchService.compute_spec_match`: percentage and the ordered
comparison mapping (one entry per spec, in spec-declaration order). -/
def computeSpecMatch (tol : ℚ) (item : RFPItem) (sku : SKU) :
    ℚ × List (String × CompEntry) :=
  if item.specs.isEmpty then (0, [])
  else
    let rows := item.specs.map (fun p =>
      let skuVal := findMatchingFeature p.1 sku
      let score := compareValues tol p.2 skuVal
      (p.1, { rfp_value := p.2
              sku_value := skuVal.getD "N/A"
              match_score := score
              match_type := getMatchType score }))
    let total := (rows.map (fun r => r.2.match_score)).sum
    ((total / (item.specs.length : ℚ)) * 100, rows)

/-- Python's `round(x, 2)` (banker's rounding) on the exact rational value. -/
def pythonRound2 (q : ℚ) : ℚ :=
  let y := q * 100
  let f : ℤ := ⌊y⌋
  let r := y - (f : ℚ)
  let n : ℤ :=
    if r > 1/2 then f + 1
    else if r < 1/2 then f
    else if f % 2 = 0 then f else f + 1
  (n : ℚ) / 100

/-- One element of the `scored_skus` list in `TechnicalAgent._process_rfp_item`. -/
structure ScoredSku where
  sku_id : String
  product_name : String
  percent : ℚ
  comparison : List (String × CompEntry)
deriving DecidableEq, Repr

/-- The scoring loop of `_process_rfp_item` over the retrieved candidates
(candidate retrieval itself is the external collaborator and is passed in as
the candidate list). -/
def scoreCandidates (tol : ℚ) (item : RFPItem) (candidates : List SKU) :
    List ScoredSku :=
  candidates.map (fun sku =>
    let pc := computeSpecMatch tol item sku
    { sku_id := sku.sku_id
      product_name := sku.product_name
      percent := pythonRound2 pc.1
      comparison := pc.2 })

/-- Stable insertion of `x` (an element earlier in the input than everything
in the already-sorted tail) into a descending-sorted list: `x` goes before the
first element with key not above its own. -/
def insertDescBy (key : α → ℚ) (x : α) : List α → List α
  | [] => [x]
  | y :: ys =>
    if key x ≥ key y then x :: y :: ys
    else y :: insertDescBy key x ys

/-- Model of `scored_skus.sort(key=..., reverse=True)`: Python's `list.sort` is
*stable*, and with `reverse=True` equal-key elements still keep their input
order, so the result is the unique stable descending sort — realised here as
a stable insertion sort. -/
def sortDescBy (key : α → ℚ) : List α → List α
  | [] => []
  | x :: xs => insertDescBy key x (sortDescBy key xs)

/-- Model of `api.schema.SpecMatchRow`. -/
structure SpecMatchRow where
  rfp_item_id : String
  rfp_description : String
  spec_name : String
  rfp_value : String
  sku1_value : String
  sku2_value : String
  sku3_value : String
deriving DecidableEq, Repr

/-- Model of the comparison-dict lookup `comparison.get(spec_name)` falling
back to the `"N/A"` default for the `sku_value` column. -/
def lookupSkuValue (comparison : List (String × CompEntry)) (specName : String) :
    String :=
  match comparison.lookup specName with
  | some e => e.sku_value
  | none => "N/A"

/-- The `while len(sku_values) < 3: append("N/A")` padding. -/
def padNA (l : List String) : List String :=
  l ++ List.replicate (3 - l.length) "N/A"

/-- Embedding of `TechnicalAgent._build_comparison_table`. -/
def buildComparisonTable (item : RFPItem) (topSkus : List ScoredSku) :
    List SpecMatchRow :=
  item.specs.map (fun p =>
    let vals := padNA (topSkus.map (fun s => lookupSkuValue s.comparison p.1))
    { rfp_item_id := item.item_id
      rfp_description := item.description
      spec_name := p.1
      rfp_value := p.2
      sku1_value := vals.getD 0 "N/A"
      sku2_value := vals.getD 1 "N/A"
      sku3_value := vals.getD 2 "N/A" })

/-- One entry of the `top_skus` output list (the `explanation` display string,
pure percent formatting, is not modelled). -/
structure TopSkuEntry where
  sku_id : String
  product_name : String
  spec_match_percent : ℚ
deriving DecidableEq, Repr

/-- Model of `api.schema.TechnicalRecommendation`. -/
structure TechnicalRecommendation where
  rfp_item_id : String
  top_skus : List TopSkuEntry
  spec_comparison_table : List SpecMatchRow
  selected_best_sku_id : String
deriving DecidableEq, Repr

/-- Embedding of `TechnicalAgent._process_rfp_item`, with the retrieved candidate list as
explicit input. -/
def processRfpItem (tol : ℚ) (item : RFPItem) (candidates : List SKU) :
    TechnicalRecommendation :=
  let scored := scoreCandidates tol item candidates
  let sorted := sortDescBy (fun s => s.percent) scored
  let top3 := sorted.take 3
  let table := buildComparisonTable item top3
  let best := match top3 with
    | [] => "NONE"
    | s :: _ => s.sku_id
  { rfp_item_id := item.item_id
    top_skus := top3.map (fun s => ⟨s.sku_id, s.product_name, s.percent⟩)
    spec_comparison_table := table
    selected_best_sku_id := best }

/-! ### Technical agent with explicit exception semantics

`_process_rfp_item` has no handler around `compute_spec_match`, and
`TechnicalAgent.run` logs and re-raises (`except Exception as e: ...; raise`).
To reason about a comparison that raises, the scorer is passed in as a
fallible function and the loop is embedded in the `Except` monad: an error in
the loop body short-circuits exactly as an uncaught Python exception does. -/

/-- The candidate-scoring loop of `_process_rfp_item` under a scorer that may
raise; no error is caught. -/
def scoreCandidatesE (score : RFPItem → SKU → Except String (ℚ × List (String × CompEntry)))
    (item : RFPItem) : List SKU → Except String (List ScoredSku)
  | [] => .ok []
  | sku :: rest => do
    let pc ← score item sku
    let tail ← scoreCandidatesE score item rest
    pure ({ sku_id := sku.sku_id
            product_name := sku.product_name
            percent := pythonRound2 pc.1
            comparison := pc.2 } :: tail)

/-- Embedding of `_process_rfp_item` under a fallible scorer. -/
def processRfpItemE (score : RFPItem → SKU → Except String (ℚ × List (String × CompEntry)))
    (item : RFPItem) (candidates : List SKU) : Except String TechnicalRecommendation := do
  let scored ← scoreCandidatesE score item candidates
  let sorted := sortDescBy (fun s => s.percent) scored
  let top3 := sorted.take 3
  let table := buildComparisonTable item top3
  let best := match top3 with
    | [] => "NONE"
    | s :: _ => s.sku_id
  pure { rfp_item_id := item.item_id
         top_skus := top3.map (fun s => ⟨s.sku_id, s.product_name, s.percent⟩)
         spec_comparison_table := table
         selected_best_sku_id := best }

/-- The per-item loop of `TechnicalAgent.run` (each item paired with its
retrieved candidates); `run`'s `except` clause only logs and re-raises, so an
error in any item aborts the whole batch. -/
def runTechnicalE (score : RFPItem → SKU → Except String (ℚ × List (String × CompEntry))) :
    List (RFPItem × List SKU) → Except String (List TechnicalRecommendation)
  | [] => .ok []
  | (item, cands) :: rest => do
    let rec ← processRfpItemE score item cands
    let tail ← runTechnicalE score rest
    pure (rec :: tail)

/-! ### Pricing models and the pricing service -/

/-- Model of `pricing_models.PricingLine` (a product price-table row). -/
structure ProductPriceRow where
  sku_id : String
  unit_price : ℚ
deriving DecidableEq, Repr

/-- Model of `pricing_models.TestPricingLine`. -/
structure TestPriceRow where
  test_name : String
  price : ℚ
deriving DecidableEq, Repr

/-- Model of `pricing_models.PricingTables`. -/
structure PricingTables where
  product_pricing : List ProductPriceRow
  test_pricing : List TestPriceRow
deriving DecidableEq, Repr

/-- Python `str.lower()` on a whole string. -/
def pyLower (s : String) : String := ⟨pyLowerChars s.data⟩

/-- Embedding of `PricingTables.get_product_price`: first row whose `sku_id` equals the
query *exactly* (case-sensitive `==`). -/
def getProductPrice (t : PricingTables) (skuId : String) : Option ℚ :=
  (t.product_pricing.find? (fun l => l.sku_id == skuId)).map (fun l => l.unit_price)

/-- Embedding of `PricingTables.get_test_price`: first row matching the query after
lowercasing both sides (case-insensitive). -/
def getTestPrice (t : PricingTables) (testName : String) : Option ℚ :=
  (t.test_pricing.find? (fun l => pyLower l.test_name == pyLower testName)).map
    (fun l => l.price)

/-- Model of `rfp_models.RFPTestRequirement` (only `test_name` feeds the engine;
the descriptive fields are carried for fidelity). -/
structure RFPTestRequirement where
  test_name : String
  description : String := ""
  required_standard : String := ""
  frequency : Option String := none
deriving DecidableEq, Repr

/-- Model of `rfp_models.RFP` restricted to the fields the engine reads
(title/URL/deadline/summary metadata never reach matching or pricing). -/
structure RFP where
  rfp_id : String
  scope_of_supply : List RFPItem
  test_requirements : List RFPTestRequirement
deriving DecidableEq, Repr

/-- Model of `api.schema.TechnicalAgentOutput`. -/
structure TechnicalAgentOutput where
  rfp_id : String
  recommendations : List TechnicalRecommendation
deriving DecidableEq, Repr

/-- Model of `api.schema.PricingResultLine`. -/
structure PricingResultLine where
  rfp_item_id : String
  sku_id : String
  quantity : ℚ
  unit_price : ℚ
  material_cost : ℚ
  allocated_test_cost : ℚ
  total_cost : ℚ
deriving DecidableEq, Repr

/-- Model of `api.schema.PricingAgentOutput`. -/
structure PricingAgentOutput where
  rfp_id : String
  lines : List PricingResultLine
  total_material_cost : ℚ
  total_test_cost : ℚ
  grand_total : ℚ
deriving DecidableEq, Repr

/-- Embedding of `PricingService._find_rfp_item`. -/
def findRfpItem (rfp : RFP) (itemId : String) : Option RFPItem :=
  rfp.scope_of_supply.find? (fun it => it.item_id == itemId)

/-- The material-cost loop of `PricingService.price_rfp`: recommendations
whose item id is not in the RFP are skipped with a warning; each remaining
one becomes a line with `unit_price = get_product_price(sku_id) or 0` and
`material_cost = quantity * unit_price`, accumulating the material total. -/
def materialLoop (tables : PricingTables) (rfp : RFP) :
    List TechnicalRecommendation → List PricingResultLine × ℚ
  | [] => ([], 0)
  | rec :: rest =>
    match findRfpItem rfp rec.rfp_item_id with
    | none => materialLoop tables rfp rest
    | some item =>
      let unitPrice := (getProductPrice tables rec.selected_best_sku_id).getD 0
      let mat := item.quantity * unitPrice
      let tail := materialLoop tables rfp rest
      ({ rfp_item_id := item.item_id
         sku_id := rec.selected_best_sku_id
         quantity := item.quantity
         unit_price := unitPrice
         material_cost := mat
         allocated_test_cost := 0
         total_cost := mat } :: tail.1, mat + tail.2)

/-- The test-cost loop of `price_rfp`: absent test prices degrade to 0. -/
def totalTestCost (tables : PricingTables) (reqs : List RFPTestRequirement) : ℚ :=
  reqs.foldl (fun acc t => acc + (getTestPrice tables t.test_name).getD 0) 0

/-- The allocation loop of `price_rfp`: runs only when lines exist and the
test total is positive; proportional to material cost when the material total
is positive, equal `1/len(lines)` split otherwise. -/
def allocate (totalTest totalMat : ℚ) (lines : List PricingResultLine) :
    List PricingResultLine :=
  if !lines.isEmpty && totalTest > 0 then
    lines.map (fun l =>
      let proportion :=
        if totalMat > 0 then l.material_cost / totalMat
        else 1 / (lines.length : ℚ)
      let alloc := totalTest * proportion
      { l with allocated_test_cost := alloc
               total_cost := l.material_cost + alloc })
  else lines

/-- Embedding of `PricingService.price_rfp`. -/
def priceRfp (tables : PricingTables) (rfp : RFP) (tech : TechnicalAgentOutput) :
    PricingAgentOutput :=
  let m := materialLoop tables rfp tech.recommendations
  let totalTest := totalTestCost tables rfp.test_requirements
  let lines := allocate totalTest m.2 m.1
  { rfp_id := rfp.rfp_id
    lines := lines
    total_material_cost := m.2
    total_test_cost := totalTest
    grand_total := m.2 + totalTest }

/-! ### Shared concrete inputs for witnesses and counterexamples -/

/-- A SKU whose only feature is named `voltage_grade`. -/
def skuV : SKU := ⟨"SKU-V", "Voltage SKU", "Cable", [⟨"voltage_grade", "1.1 kV", none⟩]⟩

/-- A SKU with no features. -/
def skuA : SKU := ⟨"SKU-A", "Prod A", "Cable", []⟩

/-- A requirement item with a single spec. -/
def itemA : RFPItem := ⟨"ITEM-A", "Power cable", 1000, "meters", [("voltage", "1.1 kV")]⟩

/-- Pricing tables holding one product price and one test price. -/
def tablesA : PricingTables := ⟨[⟨"SKU-A", 10⟩], [⟨"Routine Tests", 5⟩]⟩

/-- An RFP with one item (id `ITEM-A`) and one test requirement. -/
def rfpA : RFP := ⟨"RFP-A", [itemA], [⟨"Routine Tests", "", "", none⟩]⟩

/-- A technical output whose single recommendation carries the `NONE` sentinel. -/
def techNoneA : TechnicalAgentOutput := ⟨"RFP-A", [⟨"ITEM-A", [], [], "NONE"⟩]⟩

/-- A technical output with no recommendations at all. -/
def techEmptyA : TechnicalAgentOutput := ⟨"RFP-A", []⟩

/-- A technical output with one priced recommendation (`SKU-A` for `ITEM-A`). -/
def techSelA : TechnicalAgentOutput := ⟨"RFP-A", [⟨"ITEM-A", [], [], "SKU-A"⟩]⟩

/-- Empty pricing tables. -/
def tablesB : PricingTables := ⟨[], []⟩

/-- An RFP with one item and no test requirements. -/
def rfpB : RFP := ⟨"RFP-B", [itemA], []⟩

/-- A scorer that raises on every candidate. -/
def badScore : RFPItem → SKU → Except String (ℚ × List (String × CompEntry)) :=
  fun _ _ => .error "boom"

/-- Modelled from the spec: the numeric rule of §4.1/§8 as the claim words it
— relative difference `|a-b| / |a|` when `a ≠ 0`, *raw* difference `|a-b|`
when `a = 0`, compared against the configured tolerance and twice it. -/
def specClaimNumericScore (tol x y : ℚ) : ℚ :=
  let d := if x = 0 then |x - y| else |x - y| / |x|
  if d ≤ tol then 4/5 else if d ≤ 2 * tol then 1/2 else 0

/-! ### C1 -/

/-- Claim C1 (amended): `compare` returns score 1.0 with classification
"Exact Match" whenever the two values are equal as *lowercased, trimmed*
strings — that is the equality `_compare_values` actually tests; the
underscore-collapsing normalization applies to spec *names* during feature
lookup, not to compared values. -/
theorem c1_exact_match_lower_strip (tol : ℚ) (a b : String)
    (h : lowerStrip a = lowerStrip b) :
    compareValues tol a (some b) = 1 ∧
    getMatchType (compareValues tol a (some b)) = "Exact Match" := by
  have h1 : compareValues tol a (some b) = 1 := by
    simp [compareValues, h]
  refine ⟨h1, ?_⟩
  rw [h1]
  norm_num [getMatchType]

/-- Witness for C1's theorem at a concrete pair differing in case and
trailing whitespace. -/
theorem c1_witness :
    lowerStrip "Copper " = lowerStrip "copper" ∧
    compareValues (1/10) "Copper " (some "copper") = 1 ∧
    getMatchType (compareValues (1/10) "Copper " (some "copper")) = "Exact Match" := by
  have h : lowerStrip "Copper " = lowerStrip "copper" := by decide
  exact ⟨h, (c1_exact_match_lower_strip (1/10) "Copper " "copper" h).1,
    (c1_exact_match_lower_strip (1/10) "Copper " "copper" h).2⟩

/-- Counterexample to C1 as stated: `"A B"` and `"A-B"` have equal normalized
forms (`a_b`), yet `_compare_values` scores them 0, not 1.0. -/
theorem c1_cex :
    normalizeName "A B" = normalizeName "A-B" ∧
    compareValues (1/10) "A B" (some "A-B") = 0 ∧
    compareValues (1/10) "A B" (some "A-B") ≠ 1 := by
  refine ⟨by decide, by decide, by decide⟩

/-! ### C2 -/

/-- Evaluate `|a|` when `a` equals a nonnegative value. -/
lemma abs_eval_pos {a b : ℚ} (h : a = b) (hb : 0 ≤ b) : |a| = b := by
  rw [h]; exact abs_of_nonneg hb

/-- Evaluate `|a|` when `a` equals the negation of a nonnegative value. -/
lemma abs_eval_neg {a b : ℚ} (h : a = -b) (hb : 0 ≤ b) : |a| = b := by
  rw [h, abs_neg]; exact abs_of_nonneg hb

/-- Evaluation of `_compare_values` on the numeric branch: when the lowered
trimmed strings differ and both contain a numeric token, the result is the
tolerance-band expression of the source. -/
lemma compareValues_numeric (tol : ℚ) (a b : String) (x y : ℚ)
    (hne : lowerStrip a ≠ lowerStrip b)
    (hx : extractNumber (lowerStrip a) = some x)
    (hy : extractNumber (lowerStrip b) = some y) :
    compareValues tol a (some b) =
      (if |x - y| ≤ |x * tol| then 4/5
       else if |x - y| ≤ |x * tol| * 2 then 1/2 else 0) := by
  simp [compareValues, hne, hx, hy]

/-- Claim C2 (amended): for values unequal as lowercased trimmed strings that
both contain an extractable numeric token, the score is 0.8 when
`|a-b| ≤ tolerance·|a|` (for `a ≠ 0` this is relative difference ≤ tolerance;
for `a = 0` the threshold degenerates to 0, so only `b = 0` qualifies), 0.5
when `|a-b| ≤ 2·tolerance·|a|`, and 0.0 otherwise; in particular
`compare(100, 108) = 0.8` and `compare(100, 125) = 0.0`. -/
theorem c2_numeric_tolerance_bands :
    (∀ (tol : ℚ) (a b : String) (x y : ℚ),
      lowerStrip a ≠ lowerStrip b →
      extractNumber (lowerStrip a) = some x →
      extractNumber (lowerStrip b) = some y →
      compareValues tol a (some b) =
        (if |x - y| ≤ |x * tol| then 4/5
         else if |x - y| ≤ |x * tol| * 2 then 1/2 else 0)) ∧
    compareValues (1/10) "100" (some "108") = 4/5 ∧
    compareValues (1/10) "100" (some "125") = 0 := by
  refine ⟨fun tol a b x y hne hx hy => compareValues_numeric tol a b x y hne hx hy,
    ?_, ?_⟩
  · rw [compareValues_numeric (1/10) "100" "108" 100 108
      (by decide) (by decide) (by decide)]
    rw [abs_eval_neg (show (100:ℚ) - 108 = -8 by norm_num) (by norm_num),
      abs_eval_pos (show (100:ℚ) * (1/10) = 10 by norm_num) (by norm_num)]
    norm_num
  · rw [compareValues_numeric (1/10) "100" "125" 100 125
      (by decide) (by decide) (by decide)]
    rw [abs_eval_neg (show (100:ℚ) - 125 = -25 by norm_num) (by norm_num),
      abs_eval_pos (show (100:ℚ) * (1/10) = 10 by norm_num) (by norm_num)]
    norm_num

/-- Witness for C2's theorem: `compare(5, 6)` falls in the second band. -/
theorem c2_witness :
    lowerStrip "5" ≠ lowerStrip "6 mm" ∧
    extractNumber (lowerStrip "5") = some 5 ∧
    extractNumber (lowerStrip "6 mm") = some 6 ∧
    compareValues (1/10) "5" (some "6 mm") = 1/2 := by
  refine ⟨by decide, by decide, by decide, ?_⟩
  rw [c2_numeric_tolerance_bands.1 (1/10) "5" "6 mm" 5 6
    (by decide) (by decide) (by decide)]
  rw [abs_eval_neg (show (5:ℚ) - 6 = -1 by norm_num) (by norm_num),
    abs_eval_pos (show (5:ℚ) * (1/10) = 1/2 by norm_num) (by norm_num)]
  norm_num

/-- Counterexample to C2 as stated: for the pair `("0", "0.05")` the claim's
own rule (raw difference `0.05 ≤ 0.1` when `a = 0`) predicts 0.8, but the
code computes `tolerance = |0 · 0.1| = 0` and returns 0.0. -/
theorem c2_cex :
    lowerStrip "0" ≠ lowerStrip "0.05" ∧
    extractNumber (lowerStrip "0") = some 0 ∧
    extractNumber (lowerStrip "0.05") = some (1/20) ∧
    specClaimNumericScore (1/10) 0 (1/20) = 4/5 ∧
    compareValues (1/10) "0" (some "0.05") = 0 ∧
    compareValues (1/10) "0" (some "0.05") ≠ specClaimNumericScore (1/10) 0 (1/20) := by
  have hx : extractNumber (lowerStrip "0") = some 0 := by decide
  have hy : extractNumber (lowerStrip "0.05") = some (1/20) := by
    rw [show extractNumber (lowerStrip "0.05") = some (mkRat 5 100) from by decide]
    norm_num [mkRat, Rat.normalize, Rat.maybeNormalize]
  have hne : lowerStrip "0" ≠ lowerStrip "0.05" := by decide
  have hspec : specClaimNumericScore (1/10) 0 (1/20) = 4/5 := by
    simp only [specClaimNumericScore]
    rw [abs_eval_neg (show (0:ℚ) - 1/20 = -(1/20) by norm_num) (by norm_num)]
    norm_num
  have hcode : compareValues (1/10) "0" (some "0.05") = 0 := by
    rw [compareValues_numeric (1/10) "0" "0.05" 0 (1/20) hne hx hy]
    rw [abs_eval_neg (show (0:ℚ) - 1/20 = -(1/20) by norm_num) (by norm_num),
      abs_eval_pos (show (0:ℚ) * (1/10) = 0 by norm_num) (by norm_num)]
    norm_num
  exact ⟨hne, hx, hy, hspec, hcode, by rw [hcode, hspec]; norm_num⟩

/-! ### C3 -/

/-- Membership in a stable descending insertion. -/
lemma mem_insertDescBy (key : α → ℚ) (x a : α) (ys : List α) :
    a ∈ insertDescBy key x ys ↔ a = x ∨ a ∈ ys := by
  induction ys with
  | nil => simp [insertDescBy]
  | cons y ys ih =>
    rw [insertDescBy]
    split
    · simp [List.mem_cons]
    · simp only [List.mem_cons, ih]
      tauto

/-- Stable descending insertion permutes. -/
lemma insertDescBy_perm (key : α → ℚ) (x : α) (ys : List α) :
    (insertDescBy key x ys).Perm (x :: ys) := by
  induction ys with
  | nil => rfl
  | cons y ys ih =>
    rw [insertDescBy]
    split
    · exact List.Perm.refl _
    · exact (ih.cons y).trans (List.Perm.swap x y ys)

/-- The Python sort is a permutation of its input. -/
lemma sortDescBy_perm (key : α → ℚ) (l : List α) : (sortDescBy key l).Perm l := by
  induction l with
  | nil => rfl
  | cons x xs ih =>
    exact (insertDescBy_perm key x (sortDescBy key xs)).trans (ih.cons x)

/-- Inserting preserves the descending-key invariant. -/
lemma pairwise_ge_insertDescBy (key : α → ℚ) (x : α) (ys : List α)
    (h : ys.Pairwise (fun a b => key b ≤ key a)) :
    (insertDescBy key x ys).Pairwise (fun a b => key b ≤ key a) := by
  induction ys with
  | nil => simp [insertDescBy]
  | cons y ys ih =>
    rw [insertDescBy]
    split
    case isTrue hxy =>
      refine List.Pairwise.cons ?_ h
      intro z hz
      rcases List.mem_cons.mp hz with rfl | hz
      · exact hxy
      · exact (List.rel_of_pairwise_cons h hz).trans hxy
    case isFalse hxy =>
      refine List.Pairwise.cons ?_ (ih (List.Pairwise.of_cons h))
      intro z hz
      rcases (mem_insertDescBy key x z ys).mp hz with rfl | hz
      · exact le_of_lt (lt_of_not_ge hxy)
      · exact List.rel_of_pairwise_cons h hz

/-- The Python sort yields keys in descending order. -/
lemma sortDescBy_sorted (key : α → ℚ) (l : List α) :
    (sortDescBy key l).Pairwise (fun a b => key b ≤ key a) := by
  induction l with
  | nil => simp [sortDescBy]
  | cons x xs ih =>
    rw [sortDescBy]
    exact pairwise_ge_insertDescBy key x (sortDescBy key xs) ih

/-- The combined "descending and stable" ordering on index-tagged elements:
an earlier output position has strictly larger key, or equal key and smaller
original index. -/
def stableLexBy (key : α → ℚ) (idx : α → ℕ) (a b : α) : Prop :=
  key b < key a ∨ (key a = key b ∧ idx a < idx b)

/-- Inserting an element whose index precedes every index of the sorted tail
preserves the stable-descending ordering. -/
lemma stableLex_insertDescBy (key : α → ℚ) (idx : α → ℕ) (x : α) (ys : List α)
    (h : ys.Pairwise (stableLexBy key idx))
    (hidx : ∀ y ∈ ys, idx x < idx y) :
    (insertDescBy key x ys).Pairwise (stableLexBy key idx) := by
  induction ys with
  | nil => simp [insertDescBy]
  | cons y ys ih =>
    rw [insertDescBy]
    split
    case isTrue hxy =>
      refine List.Pairwise.cons ?_ h
      intro z hz
      rcases List.mem_cons.mp hz with rfl | hz
      · rcases lt_or_eq_of_le hxy with hlt | heq
        · exact Or.inl hlt
        · exact Or.inr ⟨heq.symm, hidx z (List.mem_cons_self z ys)⟩
      · have hyz := List.rel_of_pairwise_cons h hz
        have hzy : key z ≤ key y := by
          rcases hyz with h1 | h1
          · exact le_of_lt h1
          · exact le_of_eq h1.1.symm
        rcases lt_or_eq_of_le (hzy.trans hxy) with hlt | heq
        · exact Or.inl hlt
        · exact Or.inr ⟨heq.symm, hidx z (List.mem_cons_of_mem y hz)⟩
    case isFalse hxy =>
      refine List.Pairwise.cons ?_
        (ih (List.Pairwise.of_cons h) (fun z hz => hidx z (List.mem_cons_of_mem y hz)))
      intro z hz
      rcases (mem_insertDescBy key x z ys).mp hz with rfl | hz
      · exact Or.inl (lt_of_not_ge hxy)
      · exact List.rel_of_pairwise_cons h hz

/-- Sorting an index-tagged list with strictly increasing indices yields the
stable-descending ordering: descending keys, ties in input order. -/
lemma stableLex_sortDescBy (key : α → ℚ) (idx : α → ℕ) (l : List α)
    (hidx : l.Pairwise (fun a b => idx a < idx b)) :
    (sortDescBy key l).Pairwise (stableLexBy key idx) := by
  induction l with
  | nil => simp [sortDescBy]
  | cons x xs ih =>
    rw [sortDescBy]
    refine stableLex_insertDescBy key idx x (sortDescBy key xs)
      (ih (List.Pairwise.of_cons hidx)) ?_
    intro z hz
    exact List.rel_of_pairwise_cons hidx
      (((sortDescBy_perm key xs).mem_iff).mp hz)

/-- Every index in `enumFrom n l` is at least `n`. -/
lemma fst_le_of_mem_enumFrom (p : ℕ × α) (n : ℕ) (l : List α)
    (h : p ∈ List.enumFrom n l) : n ≤ p.1 := by
  induction l generalizing n with
  | nil => simp at h
  | cons x xs ih =>
    rw [List.enumFrom_cons] at h
    rcases List.mem_cons.mp h with rfl | h
    · exact le_refl _
    · exact le_of_lt (lt_of_lt_of_le (Nat.lt_succ_self n) (ih (n + 1) h))

/-- The indices of `enumFrom` are strictly increasing. -/
lemma pairwise_fst_lt_enumFrom (n : ℕ) (l : List α) :
    (List.enumFrom n l).Pairwise (fun p q => p.1 < q.1) := by
  induction l generalizing n with
  | nil => simp
  | cons x xs ih =>
    rw [List.enumFrom_cons]
    refine List.Pairwise.cons ?_ (ih (n + 1))
    intro q hq
    exact lt_of_lt_of_le (Nat.lt_succ_self n) (fst_le_of_mem_enumFrom q (n + 1) xs hq)

/-- Claim C3 (confirmed): the ranking sort is a permutation of the scored
candidates, orders them by descending match percentage, keeps equal-percentage
candidates in their original (retrieval) order — stated as the stable-lex
ordering of the index-tagged sort — the selected candidate is the first of the
sorted order, and the concrete percentages [70, 90, 90, 40] in retrieval order
[A, B, C, D] rank as [B, C, A, D]. -/
theorem c3_ranking_stable_descending :
    (∀ (l : List ScoredSku), ((sortDescBy (fun s => s.percent) l).Perm l)) ∧
    (∀ (l : List ScoredSku),
      (sortDescBy (fun s => s.percent) l).Pairwise (fun a b => b.percent ≤ a.percent)) ∧
    (∀ (l : List ScoredSku),
      (sortDescBy (fun p => p.2.percent) l.enum).Pairwise
        (stableLexBy (fun p => p.2.percent) (fun p => p.1))) ∧
    (∀ (tol : ℚ) (item : RFPItem) (candidates : List SKU),
      (processRfpItem tol item candidates).selected_best_sku_id =
        (((sortDescBy (fun s => s.percent)
            (scoreCandidates tol item candidates)).head?.map
          (fun s => s.sku_id)).getD "NONE")) ∧
    (sortDescBy (fun s => s.percent)
        ([⟨"A", "A", 70, []⟩, ⟨"B", "B", 90, []⟩, ⟨"C", "C", 90, []⟩,
          ⟨"D", "D", 40, []⟩] : List ScoredSku)).map (fun s => s.sku_id) =
      ["B", "C", "A", "D"] := by
  refine ⟨sortDescBy_perm _, sortDescBy_sorted _, ?_, ?_, by decide⟩
  · intro l
    exact stableLex_sortDescBy _ _ _ (pairwise_fst_lt_enumFrom 0 l)
  · intro tol item candidates
    rw [processRfpItem]
    cases sortDescBy (fun s => s.percent) (scoreCandidates tol item candidates) with
    | nil => rfl
    | cons s rest => rfl

/-! ### C5 -/

/-- Claim C5 (amended): for an empty candidate list the recommendation's
selected candidate is the sentinel `"NONE"` and it lists no top SKUs, but the
comparison table is *not* empty in general: `_build_comparison_table` still
emits one row per required spec with all three SKU-value columns `"N/A"` (it
is empty only when the item has no specs). -/
theorem c5_empty_candidates (tol : ℚ) (item : RFPItem) :
    processRfpItem tol item [] =
      { rfp_item_id := item.item_id
        top_skus := []
        spec_comparison_table := item.specs.map (fun p =>
          { rfp_item_id := item.item_id
            rfp_description := item.description
            spec_name := p.1
            rfp_value := p.2
            sku1_value := "N/A"
            sku2_value := "N/A"
            sku3_value := "N/A" })
        selected_best_sku_id := "NONE" } := by
  simp [processRfpItem, scoreCandidates, sortDescBy, buildComparisonTable,
    padNA, List.getD]

/-- Counterexample to C5 as stated: an item with one required spec and no
candidates selects `"NONE"` yet carries a one-row comparison table. -/
theorem c5_cex :
    (processRfpItem (1/10) itemA []).selected_best_sku_id = "NONE" ∧
    (processRfpItem (1/10) itemA []).spec_comparison_table.length = 1 ∧
    (processRfpItem (1/10) itemA []).spec_comparison_table ≠ [] := by
  refine ⟨by decide, by decide, by decide⟩

/-! ### C7 -/

/-- Claim C7 (amended): only the service (test) price lookup is
case-insensitive on its string key; the unit-price lookup by candidate id
compares ids with case-sensitive equality, so a query matching no stored id
exactly returns absent. -/
theorem c7_lookup_case_sensitivity :
    (∀ (t : PricingTables) (a b : String), pyLower a = pyLower b →
      getTestPrice t a = getTestPrice t b) ∧
    (∀ (t : PricingTables) (q : String),
      (∀ r ∈ t.product_pricing, r.sku_id ≠ q) → getProductPrice t q = none) := by
  constructor
  · intro t a b h
    simp only [getTestPrice, h]
  · intro t q h
    rw [getProductPrice, Option.map_eq_none']
    exact List.find?_eq_none.mpr (fun r hr => by
      simpa using h r hr)

/-- Witness for C7's theorem on the concrete tables. -/
theorem c7_witness :
    pyLower "Routine TESTS" = pyLower "routine tests" ∧
    getTestPrice tablesA "Routine TESTS" = getTestPrice tablesA "routine tests" ∧
    getProductPrice tablesA "sku-a" = none := by
  refine ⟨by decide, ?_, ?_⟩
  · exact c7_lookup_case_sensitivity.1 tablesA "Routine TESTS" "routine tests" (by decide)
  · exact c7_lookup_case_sensitivity.2 tablesA "sku-a" (by decide)

/-- Counterexample to C7 as stated: the stored product price under `"SKU-A"`
is not returned for the case-differing query `"sku-a"` (the test-price lookup,
by contrast, is case-insensitive). -/
theorem c7_cex :
    getProductPrice tablesA "SKU-A" = some 10 ∧
    getProductPrice tablesA "sku-a" = none ∧
    getProductPrice tablesA "sku-a" ≠ some 10 ∧
    getTestPrice tablesA "ROUTINE tests" = some 5 := by
  refine ⟨by decide, by decide, by decide, by decide⟩

/-! ### Pricing lemmas (C4, C6, C10) -/

/-- The material total accumulated by the loop is the sum of the emitted
lines' material costs. -/
lemma materialLoop_snd_eq_sum (tables : PricingTables) (rfp : RFP)
    (recs : List TechnicalRecommendation) :
    (materialLoop tables rfp recs).2 =
      ((materialLoop tables rfp recs).1.map (fun l => l.material_cost)).sum := by
  induction recs with
  | nil => simp [materialLoop]
  | cons rec rest ih =>
    cases h : findRfpItem rfp rec.rfp_item_id with
    | none => simp [materialLoop, h, ih]
    | some item => simp [materialLoop, h, ih]

/-- Lines leave the material loop with a zero allocated test cost. -/
lemma materialLoop_allocated_zero (tables : PricingTables) (rfp : RFP)
    (recs : List TechnicalRecommendation) :
    ∀ l ∈ (materialLoop tables rfp recs).1, l.allocated_test_cost = 0 := by
  induction recs with
  | nil => simp [materialLoop]
  | cons rec rest ih =>
    cases h : findRfpItem rfp rec.rfp_item_id with
    | none => simpa [materialLoop, h] using ih
    | some item =>
      intro l hl
      simp only [materialLoop, h, List.mem_cons] at hl
      rcases hl with rfl | hl
      · rfl
      · exact ih l hl

/-- The allocation loop keeps an empty line list empty and vice versa. -/
lemma allocate_eq_nil_iff (totalTest totalMat : ℚ) (lines : List PricingResultLine) :
    allocate totalTest totalMat lines = [] ↔ lines = [] := by
  rw [allocate]
  split
  · simp
  · exact Iff.rfl

/-- Conservation of the allocation loop: with at least one line and a
nonnegative test total, the allocated amounts sum exactly to the total. -/
lemma allocate_sum (T M : ℚ) (L : List PricingResultLine)
    (hz : ∀ l ∈ L, l.allocated_test_cost = 0)
    (hM : M = (L.map (fun l => l.material_cost)).sum)
    (hT : 0 ≤ T) (hne : L ≠ []) :
    ((allocate T M L).map (fun l => l.allocated_test_cost)).sum = T := by
  rw [allocate]
  split
  case isTrue hc =>
    rw [List.map_map]
    show (L.map (fun l =>
      T * (if M > 0 then l.material_cost / M else 1 / (L.length : ℚ)))).sum = T
    by_cases hM0 : M > 0
    · have hMne : M ≠ 0 := ne_of_gt hM0
      simp only [if_pos hM0]
      have hfun : (fun l : PricingResultLine => T * (l.material_cost / M)) =
          (fun l : PricingResultLine => (T / M) * l.material_cost) := by
        funext l
        ring
      rw [hfun, List.sum_map_mul_left, ← hM]
      exact div_mul_cancel₀ T hMne
    · simp only [if_neg hM0]
      have hlen : (L.length : ℚ) ≠ 0 := by
        have := List.length_pos.mpr hne
        exact_mod_cast this.ne'
      rw [List.map_const', List.sum_replicate, nsmul_eq_mul]
      field_simp
  case isFalse hc =>
    have hTz : T = 0 := by
      by_contra hne0
      apply hc
      have hTpos : T > 0 := lt_of_le_of_ne hT (Ne.symm hne0)
      have h1 : L.isEmpty = false := List.isEmpty_eq_false.mpr hne
      simp [h1, hTpos]
    rw [hTz]
    exact List.sum_eq_zero (fun x hx => by
      rcases List.mem_map.mp hx with ⟨l, hl, rfl⟩
      exact hz l hl)

/-- Claim C4 (amended): whenever `price_rfp` produces at least one line and
its test total is nonnegative, the allocated test costs sum *exactly* to the
total test cost (hence within any tolerance) — under both the proportional
rule and the equal split.  With zero lines the total stays unallocated, so
the restriction to a nonempty line list is necessary. -/
theorem c4_allocation_conservation (tables : PricingTables) (rfp : RFP)
    (tech : TechnicalAgentOutput)
    (hT : 0 ≤ (priceRfp tables rfp tech).total_test_cost)
    (hl : (priceRfp tables rfp tech).lines ≠ []) :
    ((priceRfp tables rfp tech).lines.map (fun l => l.allocated_test_cost)).sum =
      (priceRfp tables rfp tech).total_test_cost := by
  simp only [priceRfp] at hT hl ⊢
  refine allocate_sum _ _ _
    (materialLoop_allocated_zero tables rfp tech.recommendations)
    (materialLoop_snd_eq_sum tables rfp tech.recommendations) hT ?_
  intro hcon
  exact hl ((allocate_eq_nil_iff _ _ _).mpr hcon)

/-- Witness for C4's theorem on a concrete one-line batch. -/
theorem c4_witness :
    0 ≤ (priceRfp tablesB rfpB techSelA).total_test_cost ∧
    (priceRfp tablesB rfpB techSelA).lines ≠ [] ∧
    ((priceRfp tablesB rfpB techSelA).lines.map (fun l => l.allocated_test_cost)).sum =
      (priceRfp tablesB rfpB techSelA).total_test_cost := by
  refine ⟨by decide, by decide, ?_⟩
  exact c4_allocation_conservation tablesB rfpB techSelA (by decide) (by decide)

/-- Counterexample to C4 as stated: with a positive test total but no
produced lines (here: no recommendations at all), the allocated sum is 0
while the total is 5, far outside the 1e-6 relative tolerance. -/
theorem c4_cex :
    (priceRfp tablesA rfpA techEmptyA).lines = [] ∧
    (priceRfp tablesA rfpA techEmptyA).total_test_cost = 5 ∧
    ¬ (|((priceRfp tablesA rfpA techEmptyA).lines.map
          (fun l => l.allocated_test_cost)).sum -
        (priceRfp tablesA rfpA techEmptyA).total_test_cost| ≤
        (priceRfp tablesA rfpA techEmptyA).total_test_cost * (1/1000000)) := by
  have hlines : (priceRfp tablesA rfpA techEmptyA).lines = [] := by decide
  have ht : getTestPrice tablesA "Routine Tests" = some 5 := by decide
  have hT : (priceRfp tablesA rfpA techEmptyA).total_test_cost = 5 := by
    simp [priceRfp, totalTestCost, rfpA, ht]
  refine ⟨hlines, hT, ?_⟩
  rw [hlines, hT]
  simp only [List.map_nil, List.sum_nil]
  rw [abs_eval_neg (show (0:ℚ) - 5 = -5 by norm_num) (by norm_num)]
  norm_num

/-- The stable fields of a pricing line: item id, SKU id, quantity, unit
price and material cost (what the allocation pass never changes). -/
def lineCore (l : PricingResultLine) : String × String × ℚ × ℚ × ℚ :=
  (l.rfp_item_id, l.sku_id, l.quantity, l.unit_price, l.material_cost)

/-- Allocation does not change the stable fields of any line. -/
lemma allocate_map_lineCore (T M : ℚ) (L : List PricingResultLine) :
    (allocate T M L).map lineCore = L.map lineCore := by
  rw [allocate]
  split
  · rw [List.map_map]
    rfl
  · rfl

/-- The material loop emits precisely one line per recommendation whose item
id is found in the RFP, with the looked-up (or zero) unit price and the
quantity-times-price material cost. -/
lemma materialLoop_map_lineCore (tables : PricingTables) (rfp : RFP)
    (recs : List TechnicalRecommendation) :
    (materialLoop tables rfp recs).1.map lineCore =
      recs.filterMap (fun rec =>
        (findRfpItem rfp rec.rfp_item_id).map (fun item =>
          (item.item_id, rec.selected_best_sku_id, item.quantity,
           (getProductPrice tables rec.selected_best_sku_id).getD 0,
           item.quantity * (getProductPrice tables rec.selected_best_sku_id).getD 0))) := by
  induction recs with
  | nil => rfl
  | cons rec rest ih =>
    rw [List.filterMap_cons]
    cases h : findRfpItem rfp rec.rfp_item_id with
    | none => simp [materialLoop, h, ih]
    | some item => simp [materialLoop, h, ih, lineCore]

/-- Claim C6 (amended): `price_rfp` performs the unit-price lookup and emits
a PricingLine (unit price 0 when the lookup is absent, with a logged warning;
material cost = quantity × unit price) for *every* recommendation whose item
id is found in the RFP — including recommendations whose selection is the
`"NONE"` sentinel, which are not filtered out — and only for those. -/
theorem c6_lines_for_found_recommendations (tables : PricingTables) (rfp : RFP)
    (tech : TechnicalAgentOutput) :
    (priceRfp tables rfp tech).lines.map lineCore =
      tech.recommendations.filterMap (fun rec =>
        (findRfpItem rfp rec.rfp_item_id).map (fun item =>
          (item.item_id, rec.selected_best_sku_id, item.quantity,
           (getProductPrice tables rec.selected_best_sku_id).getD 0,
           item.quantity * (getProductPrice tables rec.selected_best_sku_id).getD 0))) := by
  simp only [priceRfp]
  rw [allocate_map_lineCore, materialLoop_map_lineCore]

/-- Counterexample to C6 as stated: a recommendation carrying the `"NONE"`
sentinel still produces a pricing line (the claim says only non-`"NONE"`
selections do). -/
theorem c6_cex :
    (priceRfp tablesB rfpB techNoneA).lines.map (fun l => l.sku_id) = ["NONE"] ∧
    (priceRfp tablesB rfpB techNoneA).lines ≠ [] := by
  exact ⟨by decide, by decide⟩

/-- Claim C10 (confirmed): recommendations whose item id does not occur in
the RFP's scope of supply are skipped entirely — dropping them from the input
leaves every output of `price_rfp` (lines, totals, allocation) unchanged, so
they produce no line, contribute nothing to any total or to the allocation
denominator, and the run still completes for the remaining recommendations. -/
theorem c10_missing_item_skipped (tables : PricingTables) (rfp : RFP)
    (tech : TechnicalAgentOutput) :
    priceRfp tables rfp
      { tech with recommendations := (tech.recommendations.filter
          (fun rec => (findRfpItem rfp rec.rfp_item_id).isSome)) } =
      priceRfp tables rfp tech := by
  have key : ∀ recs : List TechnicalRecommendation,
      materialLoop tables rfp (recs.filter
        (fun rec => (findRfpItem rfp rec.rfp_item_id).isSome)) =
      materialLoop tables rfp recs := by
    intro recs
    induction recs with
    | nil => rfl
    | cons rec rest ih =>
      rw [List.filter_cons]
      cases h : findRfpItem rfp rec.rfp_item_id with
      | none => simp [materialLoop, h, ih]
      | some item => simp [materialLoop, h, ih]
  simp only [priceRfp, key]

/-! ### C8 -/

/-- An uncaught scorer error short-circuits the candidate loop. -/
lemma scoreCandidatesE_error
    (score : RFPItem → SKU → Except String (ℚ × List (String × CompEntry)))
    (item : RFPItem) (cands : List SKU)
    (h : ∃ c ∈ cands, ∃ e, score item c = Except.error e) :
    ∃ e, scoreCandidatesE score item cands = Except.error e := by
  induction cands with
  | nil => simp at h
  | cons sku rest ih =>
    cases hs : score item sku with
    | error e => exact ⟨e, by simp only [scoreCandidatesE, hs]; rfl⟩
    | ok v =>
      have h2 : ∃ c ∈ rest, ∃ e, score item c = Except.error e := by
        rcases h with ⟨c, hc, e, he⟩
        rcases List.mem_cons.mp hc with rfl | hc
        · rw [hs] at he; cases he
        · exact ⟨c, hc, e, he⟩
      rcases ih h2 with ⟨e, he⟩
      exact ⟨e, by simp only [scoreCandidatesE, hs, he]; rfl⟩

/-- An uncaught scorer error escapes `_process_rfp_item`. -/
lemma processRfpItemE_error
    (score : RFPItem → SKU → Except String (ℚ × List (String × CompEntry)))
    (item : RFPItem) (cands : List SKU)
    (h : ∃ c ∈ cands, ∃ e, score item c = Except.error e) :
    ∃ e, processRfpItemE score item cands = Except.error e := by
  rcases scoreCandidatesE_error score item cands h with ⟨e, he⟩
  exact ⟨e, by simp only [processRfpItemE, he]; rfl⟩

/-- An uncaught scorer error in any item aborts the whole run. -/
lemma runTechnicalE_error
    (score : RFPItem → SKU → Except String (ℚ × List (String × CompEntry)))
    (item : RFPItem) (cands : List SKU)
    (h : ∃ c ∈ cands, ∃ e, score item c = Except.error e) :
    ∀ batch : List (RFPItem × List SKU), (item, cands) ∈ batch →
      ∃ e, runTechnicalE score batch = Except.error e := by
  intro batch
  induction batch with
  | nil => intro hmem; simp at hmem
  | cons p rest ih =>
    obtain ⟨pi, pc⟩ := p
    intro hmem
    rcases List.mem_cons.mp hmem with heq | hmem
    · rcases processRfpItemE_error score item cands h with ⟨e, he⟩
      have hpi : pi = item := (Prod.mk.inj heq.symm).1
      have hpc : pc = cands := (Prod.mk.inj heq.symm).2
      subst hpi
      subst hpc
      exact ⟨e, by simp only [runTechnicalE, he]; rfl⟩
    · cases hp : processRfpItemE score pi pc with
      | error e => exact ⟨e, by simp only [runTechnicalE, hp]; rfl⟩
      | ok v =>
        rcases ih hmem with ⟨e, he⟩
        exact ⟨e, by simp only [runTechnicalE, hp, he]; rfl⟩

/-- Claim C8 (amended): the candidate-scoring loop has no exception handler
and `run` only logs and re-raises, so a candidate whose comparison raises an
internal error is *not* treated as score 0: the error propagates out of the
item's processing and aborts the whole batch. -/
theorem c8_comparison_error_propagates
    (score : RFPItem → SKU → Except String (ℚ × List (String × CompEntry)))
    (item : RFPItem) (cands : List SKU)
    (h : ∃ c ∈ cands, ∃ e, score item c = Except.error e) :
    (∃ e, processRfpItemE score item cands = Except.error e) ∧
    ∀ batch : List (RFPItem × List SKU), (item, cands) ∈ batch →
      ∃ e, runTechnicalE score batch = Except.error e :=
  ⟨processRfpItemE_error score item cands h,
    runTechnicalE_error score item cands h⟩

/-- Witness for C8's theorem with an always-raising scorer. -/
theorem c8_witness :
    (∃ c ∈ [skuA], ∃ e, badScore itemA c = Except.error e) ∧
    (∃ e, processRfpItemE badScore itemA [skuA] = Except.error e) ∧
    (∃ e, runTechnicalE badScore [(itemA, [skuA])] = Except.error e) := by
  have h : ∃ c ∈ [skuA], ∃ e, badScore itemA c = Except.error e :=
    ⟨skuA, List.mem_cons_self skuA [], "boom", rfl⟩
  exact ⟨h, (c8_comparison_error_propagates badScore itemA [skuA] h).1,
    (c8_comparison_error_propagates badScore itemA [skuA] h).2
      [(itemA, [skuA])] (List.mem_cons_self _ _)⟩

/-- Counterexample to C8 as stated: a raising comparison yields an error
result — no recommendation treating the candidate as score 0 is produced,
the error is propagated. -/
theorem c8_cex :
    processRfpItemE badScore itemA [skuA] = Except.error "boom" := rfl

/-! ### C9 -/

/-- Claim C9 (code bug): resolution is indeed exact-normalized-name match or
synonym-table lookup, and `"voltage"` and `"voltage_grade"` do resolve to the
same feature — but `"rated voltage"` does not: `_find_matching_feature`
compares the *normalized* spec name (`rated_voltage`) against the *raw*
synonym entries, and the entry `"rated voltage"` (with a space) can never
equal a normalized name, so the lookup returns no feature. -/
theorem c9_synonym_resolution_gap :
    findMatchingFeature "voltage" skuV = some "1.1 kV" ∧
    findMatchingFeature "voltage_grade" skuV = some "1.1 kV" ∧
    findMatchingFeature "rated voltage" skuV = none := by
  refine ⟨by decide, by decide, by decide⟩

end EYEngine
